import Mathlib

/-!
Shallow embedding of the model-viewer pipeline
(`src/scripts/plot_models.py` and `src/generate_images.py`).

Modelling conventions.

* Timestamps are hours since an arbitrary epoch (`Int`).  The current wall
  clock is given to `get_run_time` as a day index and an hour-of-day,
  matching what `datetime.replace(hour=..., minute=0, second=0,
  microsecond=0)` and `timedelta(hours=...)` manipulate; minutes, seconds
  and microseconds are zeroed by `get_run_time` before any other use, so
  they are dropped from the state.  The run-time string
  `strftime("%Y-%m-%d %H") + "z"` is injective on hour-truncated datetimes,
  so string comparison of run times is equality of hour timestamps.
* Gridded float fields are represented point-wise by exact rationals `ℚ`.
  The two non-rational float primitives used by the code (`np.sqrt` and
  `** 0.16`) are passed in as function parameters (`sqrtQ`, `pow016`).
* External, effectful collaborators (Herbie construction, `H.xarray`
  fetches, the matplotlib rendering inside `create_plot`) are
  deterministic oracles collected in `Env` (plus the availability probe
  `avail`, passed separately).  An exception raised by a collaborator, or
  an empty result, is its oracle returning `none` / `false`.
* Python dicts keyed by variable name are association lists in insertion
  order; each variable key is written at most once per frame, so dict
  assignment is an append.
-/

namespace ModelViewer

/-- VariableRecipe: one entry of the `VARIABLES` table of
`plot_models.py` (key, display name, search pattern, color map,
value range, unit kind, accumulation flag). -/
structure VariableRecipe where
  key : String
  name : String
  search : String
  cmap : String
  vmin : ℚ
  vmax : ℚ
  unit : String
  accum : Bool
  deriving DecidableEq, Repr

/-- The `VARIABLES` table of `plot_models.py` (lines 124-155), in dict
insertion order. -/
def VARIABLES : List VariableRecipe :=
  [ { key := "temp", name := "Temperature (2m)", search := ":TMP:2 m",
      cmap := "turbo", vmin := -10, vmax := 100, unit := "F", accum := false },
    { key := "gust", name := "Wind Gusts (sfc)", search := ":GUST:surface",
      cmap := "Reds", vmin := 0, vmax := 60, unit := "mph", accum := false },
    { key := "radar", name := "Simulated Radar", search := ":REFC:",
      cmap := "gist_ncar", vmin := 0, vmax := 70, unit := "dBZ", accum := false },
    { key := "precip", name := "1-hr Total Precip", search := ":APCP:",
      cmap := "YlGnBu", vmin := 0, vmax := 1, unit := "in", accum := true },
    { key := "snow", name := "1-hr Snowfall", search := ":(ASNOW|WEASD):",
      cmap := "Blues", vmin := 0, vmax := 2, unit := "in", accum := true } ]

/-- ModelConfig: one entry of the `MODELS` table of `plot_models.py`.
The `config.get(...)` defaults of the code (`step` 6, `max_hours` 24,
`cycle_hrs` 6, `skip_vars` empty, `member` absent) are materialised when
the table below is built, exactly as the lookups would produce them. -/
structure ModelConfig where
  model : String
  product : String
  step : Nat
  max_hours : Nat
  cycle_hrs : Nat
  priority : List String
  member : Option String
  skip_vars : List String
  display_name : String
  deriving DecidableEq, Repr

/-- The `MODELS` table of `plot_models.py` (lines 27-119), in dict
insertion order. -/
def MODELS : List (String × ModelConfig) :=
  [ ("hrrr",
     { model := "hrrr", product := "sfc", step := 1, max_hours := 24, cycle_hrs := 1,
       priority := ["aws", "nomads"], member := none, skip_vars := [],
       display_name := "HRRR" }),
    ("rap",
     { model := "rap", product := "awp130pgrb", step := 1, max_hours := 21, cycle_hrs := 1,
       priority := ["nomads"], member := none, skip_vars := [],
       display_name := "RAP" }),
    ("gfs",
     { model := "gfs", product := "pgrb2.0p25", step := 6, max_hours := 120, cycle_hrs := 6,
       priority := ["aws", "nomads"], member := none, skip_vars := [],
       display_name := "GFS" }),
    ("nam",
     { model := "nam", product := "awip12", step := 6, max_hours := 60, cycle_hrs := 6,
       priority := ["nomads"], member := none, skip_vars := [],
       display_name := "NAM" }),
    ("nam3k",
     { model := "nam", product := "conusnest.hiresf", step := 6, max_hours := 60, cycle_hrs := 6,
       priority := ["nomads"], member := none, skip_vars := [],
       display_name := "NAM 3km" }),
    ("gefs",
     { model := "gefs", product := "atmos.5", step := 6, max_hours := 120, cycle_hrs := 6,
       priority := ["aws"], member := some ("c00"), skip_vars := [],
       display_name := "GEFS" }),
    ("aigfs",
     { model := "aigfs", product := "pgrb2.0p25", step := 6, max_hours := 120, cycle_hrs := 6,
       priority := ["nomads"], member := none, skip_vars := [],
       display_name := "AIGFS (EAGLE)" }),
    ("ai_gefs",
     { model := "gefs", product := "atmos.25", step := 6, max_hours := 120, cycle_hrs := 6,
       priority := ["aws"], member := some ("c00"), skip_vars := [],
       display_name := "AI GEFS" }),
    ("ecmwf",
     { model := "ifs", product := "oper", step := 6, max_hours := 120, cycle_hrs := 12,
       priority := ["ecmwf"], member := none, skip_vars := ["radar", "snow"],
       display_name := "ECMWF IFS" }),
    ("ecmwf_aifs",
     { model := "aifs", product := "oper", step := 6, max_hours := 120, cycle_hrs := 12,
       priority := ["ecmwf"], member := none, skip_vars := ["radar", "gust", "snow"],
       display_name := "ECMWF AIFS" }),
    ("ecmwf_ens",
     { model := "ifs", product := "enfo", step := 6, max_hours := 120, cycle_hrs := 12,
       priority := ["ecmwf"], member := none, skip_vars := ["radar", "snow"],
       display_name := "ECMWF ENS" }),
    ("ecmwf_ai_ens",
     { model := "aifs", product := "enfo", step := 6, max_hours := 120, cycle_hrs := 12,
       priority := ["ecmwf"], member := none, skip_vars := ["radar", "gust", "snow"],
       display_name := "ECMWF AI ENS" }) ]

/-- Oracles for the external collaborators used by `process_frame`:
`herbie_ok` is whether the `Herbie(...)` constructor succeeds,
`fetch_mix` is the combined TMP/UGRD/VGRD fetch of section A (it returns
`some (t, u, v)` exactly when the fetch raises no exception and all three
substring lookups `t_var`, `u_var`, `v_var` find a field), `fetch_var` is
the per-recipe `H.xarray(search)` fetch of section B (`none` on exception
or empty result), `plot_ok` is whether the matplotlib body of
`create_plot` succeeds for the given (model key, variable key, data,
forecast hour), and `sqrtQ` / `pow016` are the float primitives
`np.sqrt` and `** 0.16`. -/
structure Env where
  herbie_ok : Int → Nat → Bool
  fetch_mix : Int → Nat → Option (ℚ × ℚ × ℚ)
  fetch_var : Int → Nat → String → Option ℚ
  plot_ok : String → String → ℚ → Nat → Bool
  sqrtQ : ℚ → ℚ
  pow016 : ℚ → ℚ

/-- Two-digit formatting used in the file names, Python `f"{fxx:02d}"`. -/
def fmt2 (n : Nat) : String :=
  if n < 10 then ("0") ++ toString n else toString n

/-- Relative artifact path returned by `create_plot` on success,
Python `f"images/{model_key}_{var_key}_f{fxx:02d}.png"`. -/
def image_path (model_key var_key : String) (fxx : Nat) : String :=
  "images/" ++ model_key ++ "_" ++ var_key ++ "_f" ++ fmt2 fxx ++ ".png"

/-- The `create_plot` helper (`plot_models.py` lines 210-240): the whole
matplotlib body sits in a try/except, so the call either returns the
relative path string or returns `None`; it never raises. -/
def create_plot (plot_ok : String → String → ℚ → Nat → Bool)
    (model_key var_key : String) (data : ℚ) (fxx : Nat) : Option String :=
  if plot_ok model_key var_key data fxx then some (image_path model_key var_key fxx)
  else none

/-- The `calculate_apparent_temp` helper (`plot_models.py` lines 198-207):
`np.where((T_f < 50) & (V_mph > 3), wind-chill formula, T_f)`,
modelled point-wise. -/
def calculate_apparent_temp (pow016 : ℚ → ℚ) (t_f v_mph : ℚ) : ℚ :=
  if t_f < 50 ∧ v_mph > 3 then
    35.74 + 0.6215 * t_f - 35.75 * pow016 v_mph + 0.4275 * t_f * pow016 v_mph
  else t_f

/-- The unit-conversion if/elif chain of `process_frame`
(`plot_models.py` lines 302-307). -/
def convert_unit (unit : String) (data : ℚ) : ℚ :=
  if unit = "F" then (data - 273.15) * 9 / 5 + 32
  else if unit = "mph" then data * 2.237
  else if unit = "in" then data * 0.0393701
  else data

/-- FrameRecord: the `frame_data` dict built by `process_frame`.  The two
fixed entries `fxx` and `valid` are structure fields; the variable
entries (each an artifact path string or Python `None`) are an
association list in insertion order. -/
structure FrameRecord where
  fxx : Nat
  valid : Int
  vars : List (String × Option String)
  deriving DecidableEq, Repr

/-- The `valid` entry: `(run_dt + timedelta(hours=fxx)).strftime("%H:%M")`.
Since `run_dt` is hour-truncated the minutes are always `00`, so the
string is determined by the hour-of-day of `run_dt + fxx`. -/
def validOf (run_dt : Int) (fxx : Nat) : Int :=
  (run_dt + fxx) % 24

/-- Section A of `process_frame` (lines 262-286): the combined
wind/temperature group.  On a successful fetch both the `wind` and the
`feelslike` keys are written with whatever `create_plot` returned
(possibly `None`); on a failed fetch or a missing component neither key
is written. -/
def wind_part (env : Env) (model_key : String) (config : ModelConfig)
    (run_dt : Int) (fxx : Nat) (fr : FrameRecord) : FrameRecord :=
  if ("wind") ∈ config.skip_vars then fr
  else
    match env.fetch_mix run_dt fxx with
    | none => fr
    | some (t, u, v) =>
        let ws_mph := env.sqrtQ (u ^ 2 + v ^ 2) * 2.237
        let t_f := (t - 273.15) * 9 / 5 + 32
        let apparent := calculate_apparent_temp env.pow016 t_f ws_mph
        let p1 := create_plot env.plot_ok model_key ("wind") ws_mph fxx
        let p2 := create_plot env.plot_ok model_key ("feelslike") apparent fxx
        { fr with vars := fr.vars ++ [(("wind"), p1), (("feelslike"), p2)] }

/-- One iteration of the section-B loop of `process_frame`
(lines 289-314) for a single recipe. -/
def frame_step (env : Env) (model_key : String) (config : ModelConfig)
    (run_dt : Int) (fxx : Nat) (fr : FrameRecord) (recipe : VariableRecipe) : FrameRecord :=
  if recipe.key ∈ config.skip_vars then fr
  else if fxx = 0 ∧ recipe.accum then fr
  else
    match env.fetch_var run_dt fxx recipe.search with
    | none => fr
    | some x =>
        let data := convert_unit recipe.unit x
        let p := create_plot env.plot_ok model_key recipe.key data fxx
        { fr with vars := fr.vars ++ [(recipe.key, p)] }

/-- The `process_frame` function (`plot_models.py` lines 243-316).
It always returns a record holding `fxx` and `valid`; if the Herbie
constructor fails it returns just those, otherwise it runs the wind
group and then folds the recipe loop over `VARIABLES`. -/
def process_frame (env : Env) (model_key : String) (config : ModelConfig)
    (run_dt : Int) (fxx : Nat) : FrameRecord :=
  let frame_data : FrameRecord := { fxx := fxx, valid := validOf run_dt fxx, vars := [] }
  if env.herbie_ok run_dt fxx then
    let after_wind := wind_part env model_key config run_dt fxx frame_data
    VARIABLES.foldl (frame_step env model_key config run_dt fxx) after_wind
  else frame_data

/-- The `get_run_time` helper (`plot_models.py` lines 162-170), on the
day index and hour-of-day of `datetime.utcnow()`; the result is in hours
since the epoch.  The `replace` calls zero minutes, seconds and
microseconds in both branches. -/
def get_run_time (cycle_hrs : Nat) (nowDay : Int) (nowHour : Nat) : Int :=
  if cycle_hrs = 1 then nowDay * 24 + nowHour - 1
  else nowDay * 24 + (nowHour / cycle_hrs) * cycle_hrs

/-- The four candidate run times probed by step 1 of `process_model`
(lines 352-353): `base_time - offset * (1 if cycle_hrs == 1 else
cycle_hrs)` for `offset in range(4)`. -/
def run_candidates (cycle_hrs : Nat) (base_time : Int) : List Int :=
  (List.range 4).map
    (fun offset => base_time - offset * (if cycle_hrs = 1 then (1 : Int) else cycle_hrs))

/-- Step 1 of `process_model` (lines 350-364): return the first of the
four candidates whose forecast-hour-0 probe succeeds, else `none`. -/
def find_run (avail : Int → Nat → Bool) (cycle_hrs : Nat) (base_time : Int) : Option Int :=
  (run_candidates cycle_hrs base_time).find? (fun run_dt => avail run_dt 0)

/-- The expected forecast hours `list(range(0, max_hours + 1, step))`
(line 373); `step ≥ 1` in every configuration (Python `range` raises on
step 0). -/
def all_expected_fxxs (step max_hours : Nat) : List Nat :=
  (List.range (max_hours / step + 1)).map (fun k => k * step)

/-- The Case-B forward scan of `process_model` (lines 396-406): walk the
expected hours in order, skip hours already recorded, queue hours whose
probe succeeds, and stop the whole scan at the first hour that probes
unavailable. -/
def scan_new_hours (avail_at : Nat → Bool) (existing_keys : List Nat) :
    List Nat → List Nat
  | [] => []
  | fxx :: rest =>
      if fxx ∈ existing_keys then scan_new_hours avail_at existing_keys rest
      else if avail_at fxx then fxx :: scan_new_hours avail_at existing_keys rest
      else []

/-- The forecast hours actually probed by the Case-B scan: the same walk
as `scan_new_hours`, recording every hour on which `probe_available` is
called (recorded hours are skipped without a probe; the first
unavailable hour is probed and then the scan stops). -/
def probed_hours (avail_at : Nat → Bool) (existing_keys : List Nat) :
    List Nat → List Nat
  | [] => []
  | fxx :: rest =>
      if fxx ∈ existing_keys then probed_hours avail_at existing_keys rest
      else if avail_at fxx then fxx :: probed_hours avail_at existing_keys rest
      else [fxx]

/-- The in-place replacement of step 3 of `process_model`
(lines 420-424): replace the first frame with a matching forecast hour,
leave the rest unchanged. -/
def replace_first : List FrameRecord → FrameRecord → List FrameRecord
  | [], _ => []
  | f :: rest, fr => if f.fxx = fr.fxx then fr :: rest else f :: replace_first rest fr

/-- One iteration of step 3 of `process_model` (lines 415-426): a
processed frame whose hour is in the pre-scan key set replaces its
predecessor in place, any other processed frame is appended. -/
def merge_frame (existing_keys : List Nat) (frames : List FrameRecord)
    (fr : FrameRecord) : List FrameRecord :=
  if fr.fxx ∈ existing_keys then replace_first frames fr else frames ++ [fr]

/-- Step 3 of `process_model`, folded over all processed frames. -/
def apply_frames (existing_keys : List Nat) (frames : List FrameRecord)
    (new_frames : List FrameRecord) : List FrameRecord :=
  new_frames.foldl (merge_frame existing_keys) frames

/-- The final `model_output["frames"].sort(key=lambda x: x["fxx"])`
(line 429).  Python list.sort is a stable sort by the key; any sort by
`fxx` is extensionally identical here because the key multiset is
preserved and (under the stated invariants) keys are unique. -/
def sortFrames (frames : List FrameRecord) : List FrameRecord :=
  List.insertionSort (fun a b => a.fxx ≤ b.fxx) frames

/-- RunRecord: one model entry of `status.json`: run time (hour
timestamp standing for the `"%Y-%m-%d %H" + "z"` string), display name,
ordered frame list. -/
structure RunRecord where
  run_time : Int
  display_name : String
  frames : List FrameRecord
  deriving DecidableEq, Repr

/-- The Case-A body of `process_model` (lines 375-383 and 412-430):
discard the previous frames, process every expected hour, merge into an
empty list (the key set is empty, so every processed frame is appended),
and sort. -/
def reconcile_new_run (env : Env) (name : String) (config : ModelConfig)
    (valid_dt : Int) : RunRecord :=
  let frames_to_process := all_expected_fxxs config.step config.max_hours
  let processed := frames_to_process.map (process_frame env name config valid_dt)
  { run_time := valid_dt, display_name := config.display_name,
    frames := sortFrames (apply_frames [] [] processed) }

/-- The Case-B body of `process_model` (lines 385-430): scan for new
hours; if none, return the existing frames unchanged (the early return
at line 410, which does not re-sort); otherwise process the queued
hours, merge them against the pre-scan key set, and sort. -/
def reconcile_same_run (avail : Int → Nat → Bool) (env : Env) (name : String)
    (config : ModelConfig) (valid_dt : Int) (existing_frames : List FrameRecord) :
    RunRecord :=
  let existing_keys := existing_frames.map FrameRecord.fxx
  let frames_to_process :=
    scan_new_hours (fun fxx => avail valid_dt fxx) existing_keys
      (all_expected_fxxs config.step config.max_hours)
  if frames_to_process = [] then
    { run_time := valid_dt, display_name := config.display_name, frames := existing_frames }
  else
    let processed := frames_to_process.map (process_frame env name config valid_dt)
    { run_time := valid_dt, display_name := config.display_name,
      frames := sortFrames (apply_frames existing_keys existing_frames processed) }

/-- The `process_model` function (`plot_models.py` lines 335-430).
`prev` is `existing_status.get(name)`; a missing or `null` entry makes
`existing` the empty dict, whose `run_time` (the empty string) differs
from every discovered run, hence Case A. -/
def process_model (avail : Int → Nat → Bool) (env : Env) (name : String)
    (config : ModelConfig) (nowDay : Int) (nowHour : Nat)
    (prev : Option RunRecord) : Option RunRecord :=
  let base_time := get_run_time config.cycle_hrs nowDay nowHour
  match find_run avail config.cycle_hrs base_time with
  | none => none
  | some valid_dt =>
      match prev with
      | none => some (reconcile_new_run env name config valid_dt)
      | some existing =>
          if valid_dt ≠ existing.run_time then
            some (reconcile_new_run env name config valid_dt)
          else
            some (reconcile_same_run avail env name config valid_dt existing.frames)

/-- The per-model loop of the entry point (lines 443-445): every model
in the table is processed and its result (possibly `none`) stored under
its name. -/
def run_invocation (avail : Int → Nat → Bool) (env : Env)
    (models : List (String × ModelConfig)) (nowDay : Int) (nowHour : Nat)
    (existing_status : String → Option RunRecord) : List (String × Option RunRecord) :=
  models.map (fun m => (m.1, process_model avail env m.1 m.2 nowDay nowHour (existing_status m.1)))

/-- Filesystem operations performed on the status store, for stating how
the persisted file is written.  (Image files written by `create_plot`
are a different path space and are not part of this trace.) -/
inductive FsOp where
  | openTrunc (path : String)
  | write (path : String) (content : String)
  | rename (src : String) (dst : String)
  deriving DecidableEq, Repr

/-- Whether an operation is a rename. -/
def FsOp.isRename : FsOp → Bool
  | .rename _ _ => true
  | _ => false

/-- Whether an operation opens the given path for truncating write. -/
def FsOp.isOpenTruncOf (p : String) : FsOp → Bool
  | .openTrunc q => q = p
  | _ => false

/-- The persistence step of the entry point (lines 447-448):
`with open("site/status.json", "w") as f: json.dump(status_report, f)`.
Opening with mode `w` truncates the existing file in place and the dump
is streamed into it; no temporary file and no rename are involved. -/
def persist_status (content : String) : List FsOp :=
  [FsOp.openTrunc ("site/status.json"), FsOp.write ("site/status.json") content]

/-- The entry point (lines 437-450): process every model, collecting the
report in memory, then perform the single persistence step.  `dump` is
the external JSON serialiser. -/
def main_ops (avail : Int → Nat → Bool) (env : Env)
    (models : List (String × ModelConfig)) (nowDay : Int) (nowHour : Nat)
    (existing_status : String → Option RunRecord)
    (dump : List (String × Option RunRecord) → String) :
    List (String × Option RunRecord) × List FsOp :=
  let status_report := run_invocation avail env models nowDay nowHour existing_status
  (status_report, persist_status (dump status_report))

end ModelViewer

namespace GenerateImages

/-- The temperature conversion of `generate_images.py` line 77:
`(ds.t2m - 273.15) * 9/5 + 32`. -/
def temp_convert (k : ℚ) : ℚ :=
  (k - 273.15) * 9 / 5 + 32

/-- The wind-speed derivation of `generate_images.py` line 82:
`np.sqrt(u**2 + v**2) * 2.237`, with `np.sqrt` passed in. -/
def wind_convert (sqrtQ : ℚ → ℚ) (u v : ℚ) : ℚ :=
  sqrtQ (u ^ 2 + v ^ 2) * 2.237

/-- The snow-depth conversion of `generate_images.py` line 87:
`raw * 39.37`. -/
def snow_convert (raw : ℚ) : ℚ :=
  raw * 39.37

end GenerateImages

namespace ModelViewer

/-- The sorted-no-duplicates invariant on a frame list: the forecast
hours are strictly increasing along the list. -/
def framesInvariant (fs : List FrameRecord) : Prop :=
  fs.Pairwise (fun a b => a.fxx < b.fxx)

/-- Atomic-replacement protocol for the status store, as the
specification describes it: the trace renames a temporary file into
place and never opens the final path for in-place (truncating)
writing. -/
def atomicReplace (trace : List FsOp) : Prop :=
  (∃ op ∈ trace, op.isRename = true)
    ∧ ∀ op ∈ trace, FsOp.isOpenTruncOf ("site/status.json") op = false

/-- Environment in which every collaborator fails: Herbie construction
raises, both fetches return nothing, rendering fails. -/
def envNone : Env :=
  { herbie_ok := fun _ _ => false, fetch_mix := fun _ _ => none,
    fetch_var := fun _ _ _ => none, plot_ok := fun _ _ _ _ => false,
    sqrtQ := fun _ => 0, pow016 := fun _ => 0 }

/-- Environment in which the combined wind/temperature fetch succeeds
but every rendering attempt fails. -/
def envRenderFail : Env :=
  { herbie_ok := fun _ _ => true, fetch_mix := fun _ _ => some (273.15, 3, 4),
    fetch_var := fun _ _ _ => none, plot_ok := fun _ _ _ _ => false,
    sqrtQ := fun _ => 5, pow016 := fun _ => 1 }

/-- Environment in which the combined fetch fails, the per-recipe fetch
succeeds only for the 2-metre temperature selector, and every rendering
attempt fails. -/
def envRecipeRenderFail : Env :=
  { herbie_ok := fun _ _ => true, fetch_mix := fun _ _ => none,
    fetch_var := fun _ _ s => if s = (":TMP:2 m") then some 280 else none,
    plot_ok := fun _ _ _ _ => false,
    sqrtQ := fun _ => 0, pow016 := fun _ => 0 }

/-- The first entry of the `VARIABLES` table (the 2-metre temperature
recipe), named for use as a concrete section-B recipe. -/
def tempRecipe : VariableRecipe :=
  { key := "temp", name := "Temperature (2m)", search := ":TMP:2 m",
    cmap := "turbo", vmin := -10, vmax := 100, unit := "F", accum := false }

/-- Probe oracle reporting everything available. -/
def availTrue : Int → Nat → Bool := fun _ _ => true

/-- Probe oracle reporting nothing available. -/
def availFalse : Int → Nat → Bool := fun _ _ => false

/-- Probe oracle for the gap-stop scenario: the upstream has exactly
forecast hours 0, 1 and 3 of every run. -/
def availGap : Int → Nat → Bool := fun _ f => decide (f = 0 ∨ f = 1 ∨ f = 3)

/-- Small test model: hourly cycle, hourly step, three frames. -/
def cfgW : ModelConfig :=
  { model := "m", product := "p", step := 1, max_hours := 2, cycle_hrs := 1,
    priority := [], member := none, skip_vars := [], display_name := "M" }

/-- Test model for the gap-stop scenario: `maxForecastHour` 3,
`stepHours` 1. -/
def cfgGap : ModelConfig :=
  { model := "m", product := "p", step := 1, max_hours := 3, cycle_hrs := 1,
    priority := [], member := none, skip_vars := [], display_name := "M" }

/-- Prior state for the gap-stop scenario: the record of the run that
discovery will lock onto (anchor of day 0, hour 0, hourly cycle is hour
-1), with no frames yet. -/
def prevGap : RunRecord :=
  { run_time := -1, display_name := "M", frames := [] }

end ModelViewer

namespace ModelViewer

lemma frame_step_fxx (env : Env) (k : String) (config : ModelConfig) (run : Int)
    (fxx : Nat) (fr : FrameRecord) (recipe : VariableRecipe) :
    (frame_step env k config run fxx fr recipe).fxx = fr.fxx := by
  unfold frame_step
  split
  · rfl
  · split
    · rfl
    · cases hv : env.fetch_var run fxx recipe.search <;> simp

lemma frame_step_valid (env : Env) (k : String) (config : ModelConfig) (run : Int)
    (fxx : Nat) (fr : FrameRecord) (recipe : VariableRecipe) :
    (frame_step env k config run fxx fr recipe).valid = fr.valid := by
  unfold frame_step
  split
  · rfl
  · split
    · rfl
    · cases hv : env.fetch_var run fxx recipe.search <;> simp

lemma frame_step_vars_prefix (env : Env) (k : String) (config : ModelConfig) (run : Int)
    (fxx : Nat) (fr : FrameRecord) (recipe : VariableRecipe) :
    ∃ t, (frame_step env k config run fxx fr recipe).vars = fr.vars ++ t := by
  unfold frame_step
  split
  · exact ⟨[], by simp⟩
  · split
    · exact ⟨[], by simp⟩
    · cases hv : env.fetch_var run fxx recipe.search
      · exact ⟨[], by simp⟩
      · exact ⟨_, rfl⟩

lemma foldl_frame_step_fxx (env : Env) (k : String) (config : ModelConfig) (run : Int)
    (fxx : Nat) : ∀ (l : List VariableRecipe) (fr : FrameRecord),
    (l.foldl (frame_step env k config run fxx) fr).fxx = fr.fxx
  | [], fr => rfl
  | r :: rest, fr => by
      rw [List.foldl_cons, foldl_frame_step_fxx env k config run fxx rest,
        frame_step_fxx]

lemma foldl_frame_step_valid (env : Env) (k : String) (config : ModelConfig) (run : Int)
    (fxx : Nat) : ∀ (l : List VariableRecipe) (fr : FrameRecord),
    (l.foldl (frame_step env k config run fxx) fr).valid = fr.valid
  | [], fr => rfl
  | r :: rest, fr => by
      rw [List.foldl_cons, foldl_frame_step_valid env k config run fxx rest,
        frame_step_valid]

lemma foldl_frame_step_vars_prefix (env : Env) (k : String) (config : ModelConfig)
    (run : Int) (fxx : Nat) : ∀ (l : List VariableRecipe) (fr : FrameRecord),
    ∃ t, (l.foldl (frame_step env k config run fxx) fr).vars = fr.vars ++ t
  | [], fr => ⟨[], by simp⟩
  | r :: rest, fr => by
      rw [List.foldl_cons]
      obtain ⟨t1, h1⟩ := frame_step_vars_prefix env k config run fxx fr r
      obtain ⟨t2, h2⟩ :=
        foldl_frame_step_vars_prefix env k config run fxx rest
          (frame_step env k config run fxx fr r)
      exact ⟨t1 ++ t2, by rw [h2, h1, List.append_assoc]⟩

lemma wind_part_fxx (env : Env) (k : String) (config : ModelConfig) (run : Int)
    (fxx : Nat) (fr : FrameRecord) :
    (wind_part env k config run fxx fr).fxx = fr.fxx := by
  unfold wind_part
  split
  · rfl
  · cases hv : env.fetch_mix run fxx with
    | none => simp
    | some tuv => cases tuv with
      | mk t uv => cases uv with
        | mk u v => simp

lemma wind_part_valid (env : Env) (k : String) (config : ModelConfig) (run : Int)
    (fxx : Nat) (fr : FrameRecord) :
    (wind_part env k config run fxx fr).valid = fr.valid := by
  unfold wind_part
  split
  · rfl
  · cases hv : env.fetch_mix run fxx with
    | none => simp
    | some tuv => cases tuv with
      | mk t uv => cases uv with
        | mk u v => simp

lemma process_frame_fxx (env : Env) (k : String) (config : ModelConfig) (run : Int)
    (fxx : Nat) : (process_frame env k config run fxx).fxx = fxx := by
  unfold process_frame
  split
  · rw [foldl_frame_step_fxx, wind_part_fxx]
  · rfl

lemma process_frame_valid (env : Env) (k : String) (config : ModelConfig) (run : Int)
    (fxx : Nat) : (process_frame env k config run fxx).valid = validOf run fxx := by
  unfold process_frame
  split
  · rw [foldl_frame_step_valid, wind_part_valid]
  · rfl

lemma map_fxx_map_process_frame (env : Env) (k : String) (config : ModelConfig)
    (run : Int) (S : List Nat) :
    (S.map (process_frame env k config run)).map FrameRecord.fxx = S := by
  rw [List.map_map]
  have : FrameRecord.fxx ∘ process_frame env k config run = id := by
    funext fxx
    simp [process_frame_fxx]
  rw [this, List.map_id]

end ModelViewer

namespace ModelViewer

lemma scan_eq_takeWhile_filter (a : Nat → Bool) (keys : List Nat) :
    ∀ l : List Nat,
      scan_new_hours a keys l
        = (l.filter (fun x => !decide (x ∈ keys))).takeWhile a
  | [] => rfl
  | fxx :: rest => by
      by_cases hk : fxx ∈ keys
      · simp [scan_new_hours, hk, scan_eq_takeWhile_filter a keys rest]
      · by_cases ha : a fxx
        · simp [scan_new_hours, hk, ha, List.takeWhile_cons,
            scan_eq_takeWhile_filter a keys rest]
        · simp [scan_new_hours, hk, ha, List.takeWhile_cons]

lemma probed_eq_takeWhile_filter (a : Nat → Bool) (keys : List Nat) :
    ∀ l : List Nat,
      probed_hours a keys l
        = (l.filter (fun x => !decide (x ∈ keys))).takeWhile a
          ++ ((l.filter (fun x => !decide (x ∈ keys))).dropWhile a).take 1
  | [] => rfl
  | fxx :: rest => by
      by_cases hk : fxx ∈ keys
      · simp [probed_hours, hk, probed_eq_takeWhile_filter a keys rest]
      · by_cases ha : a fxx
        · simp [probed_hours, hk, ha, List.takeWhile_cons, List.dropWhile_cons,
            probed_eq_takeWhile_filter a keys rest]
        · simp [probed_hours, hk, ha, List.takeWhile_cons, List.dropWhile_cons]

lemma mem_scan (a : Nat → Bool) {x : Nat} :
    ∀ {l keys : List Nat}, x ∈ scan_new_hours a keys l →
      x ∈ l ∧ x ∉ keys ∧ a x = true := by
  intro l
  induction l with
  | nil => intro keys h; simp [scan_new_hours] at h
  | cons fxx rest ih =>
      intro keys h
      by_cases hk : fxx ∈ keys
      · simp only [scan_new_hours, if_pos hk] at h
        obtain ⟨h1, h2, h3⟩ := ih h
        exact ⟨List.mem_cons_of_mem _ h1, h2, h3⟩
      · by_cases ha : a fxx
        · simp only [scan_new_hours, if_neg hk, if_pos ha, List.mem_cons] at h
          rcases h with h | h
          · subst h
            exact ⟨List.mem_cons_self _ _, hk, ha⟩
          · obtain ⟨h1, h2, h3⟩ := ih h
            exact ⟨List.mem_cons_of_mem _ h1, h2, h3⟩
        · simp [scan_new_hours, if_neg hk, ha] at h

lemma scan_eq_nil_of_mem (a : Nat → Bool) :
    ∀ (l keys : List Nat), (∀ x ∈ l, x ∈ keys) → scan_new_hours a keys l = []
  | [], _, _ => rfl
  | fxx :: rest, keys, h => by
      have hk : fxx ∈ keys := h fxx (List.mem_cons_self _ _)
      simp only [scan_new_hours, if_pos hk]
      exact scan_eq_nil_of_mem a rest keys (fun x hx => h x (List.mem_cons_of_mem _ hx))

lemma scan_eq_nil_of (a : Nat → Bool) :
    ∀ (l keys keys' : List Nat), l.Nodup →
      (∀ x ∈ l, (x ∈ keys' ↔ x ∈ keys ∨ x ∈ scan_new_hours a keys l)) →
      scan_new_hours a keys' l = []
  | [], _, _, _, _ => rfl
  | fxx :: rest, keys, keys', hnd, h => by
      have htail : fxx ∉ rest := (List.nodup_cons.1 hnd).1
      have hndr : rest.Nodup := (List.nodup_cons.1 hnd).2
      by_cases hk : fxx ∈ keys
      · have hscan : scan_new_hours a keys (fxx :: rest) = scan_new_hours a keys rest := by
          simp [scan_new_hours, hk]
        have hk' : fxx ∈ keys' := (h fxx (List.mem_cons_self _ _)).2 (Or.inl hk)
        simp only [scan_new_hours, if_pos hk']
        refine scan_eq_nil_of a rest keys keys' hndr (fun x hx => ?_)
        rw [h x (List.mem_cons_of_mem _ hx), hscan]
      · by_cases ha : a fxx
        · have hscan : scan_new_hours a keys (fxx :: rest)
              = fxx :: scan_new_hours a keys rest := by
            simp [scan_new_hours, hk, ha]
          have hk' : fxx ∈ keys' := by
            refine (h fxx (List.mem_cons_self _ _)).2 (Or.inr ?_)
            rw [hscan]; exact List.mem_cons_self _ _
          simp only [scan_new_hours, if_pos hk']
          refine scan_eq_nil_of a rest keys keys' hndr (fun x hx => ?_)
          rw [h x (List.mem_cons_of_mem _ hx), hscan]
          constructor
          · rintro (h1 | h1)
            · exact Or.inl h1
            · rcases List.mem_cons.1 h1 with h2 | h2
              · exact absurd (h2 ▸ hx) htail
              · exact Or.inr h2
          · rintro (h1 | h1)
            · exact Or.inl h1
            · exact Or.inr (List.mem_cons_of_mem _ h1)
        · have hscan : scan_new_hours a keys (fxx :: rest) = [] := by
            simp [scan_new_hours, hk, ha]
          have hk' : fxx ∉ keys' := by
            intro hmem
            rcases (h fxx (List.mem_cons_self _ _)).1 hmem with h1 | h1
            · exact hk h1
            · rw [hscan] at h1; simp at h1
          simp [scan_new_hours, hk', ha]

end ModelViewer

namespace ModelViewer

lemma all_expected_pairwise_lt {step max_hours : Nat} (hstep : 0 < step) :
    (all_expected_fxxs step max_hours).Pairwise (· < ·) := by
  unfold all_expected_fxxs
  exact (List.pairwise_lt_range _).map _
    (fun a b h => (Nat.mul_lt_mul_right hstep).2 h)

lemma all_expected_nodup {step max_hours : Nat} (hstep : 0 < step) :
    (all_expected_fxxs step max_hours).Nodup :=
  (all_expected_pairwise_lt hstep).imp Nat.ne_of_lt

lemma mem_all_expected {step max_hours x : Nat} (hstep : 0 < step) :
    x ∈ all_expected_fxxs step max_hours ↔ ∃ k, x = k * step ∧ x ≤ max_hours := by
  unfold all_expected_fxxs
  simp only [List.mem_map, List.mem_range]
  constructor
  · rintro ⟨k, hk, rfl⟩
    exact ⟨k, rfl, (Nat.le_div_iff_mul_le hstep).1 (Nat.lt_succ_iff.1 hk)⟩
  · rintro ⟨k, rfl, hle⟩
    exact ⟨k, Nat.lt_succ_iff.2 ((Nat.le_div_iff_mul_le hstep).2 hle), rfl⟩

lemma replace_first_map_fxx (fr : FrameRecord) :
    ∀ fs : List FrameRecord,
      (replace_first fs fr).map FrameRecord.fxx = fs.map FrameRecord.fxx
  | [] => rfl
  | f :: rest => by
      unfold replace_first
      by_cases h : f.fxx = fr.fxx
      · rw [if_pos h]
        simp [h]
      · rw [if_neg h]
        simp [replace_first_map_fxx fr rest]

lemma apply_frames_map_fxx (keys : List Nat) :
    ∀ (news : List FrameRecord) (fs : List FrameRecord),
      (apply_frames keys fs news).map FrameRecord.fxx
        = fs.map FrameRecord.fxx
          ++ (news.filter (fun fr => !decide (fr.fxx ∈ keys))).map FrameRecord.fxx
  | [], fs => by simp [apply_frames]
  | fr :: rest, fs => by
      show (apply_frames keys (merge_frame keys fs fr) rest).map FrameRecord.fxx = _
      by_cases h : fr.fxx ∈ keys
      · rw [apply_frames_map_fxx keys rest (merge_frame keys fs fr)]
        unfold merge_frame
        rw [if_pos h, replace_first_map_fxx]
        simp [List.filter_cons, h]
      · rw [apply_frames_map_fxx keys rest (merge_frame keys fs fr)]
        unfold merge_frame
        rw [if_neg h]
        simp [List.filter_cons, h, List.append_assoc]

lemma apply_frames_nil_keys :
    ∀ (news fs : List FrameRecord), apply_frames [] fs news = fs ++ news
  | [], fs => by simp [apply_frames]
  | fr :: rest, fs => by
      show apply_frames [] (merge_frame [] fs fr) rest = _
      rw [merge_frame]
      simp only [List.not_mem_nil, if_neg (fun h => h)]
      rw [apply_frames_nil_keys rest (fs ++ [fr]), List.append_assoc]
      rfl

lemma sortFrames_perm (fs : List FrameRecord) : List.Perm (sortFrames fs) fs :=
  List.perm_insertionSort _ fs

instance : IsTotal FrameRecord (fun a b => a.fxx ≤ b.fxx) :=
  ⟨fun a b => Nat.le_total a.fxx b.fxx⟩

instance : IsTrans FrameRecord (fun a b => a.fxx ≤ b.fxx) :=
  ⟨fun _ _ _ h1 h2 => Nat.le_trans h1 h2⟩

lemma sortFrames_sorted (fs : List FrameRecord) :
    (sortFrames fs).Pairwise (fun a b => a.fxx ≤ b.fxx) :=
  List.sorted_insertionSort _ fs

lemma sortFrames_eq_of_sorted {fs : List FrameRecord}
    (h : fs.Pairwise (fun a b => a.fxx ≤ b.fxx)) : sortFrames fs = fs :=
  List.Sorted.insertionSort_eq h

lemma pairwise_lt_of_sorted_nodup {l : List FrameRecord}
    (h1 : l.Pairwise (fun a b => a.fxx ≤ b.fxx))
    (h2 : (l.map FrameRecord.fxx).Nodup) :
    l.Pairwise (fun a b => a.fxx < b.fxx) := by
  have h3 : l.Pairwise (fun a b => a.fxx ≠ b.fxx) := List.pairwise_map.1 h2
  exact (h1.and h3).imp (fun h => Nat.lt_of_le_of_ne h.1 h.2)

lemma sortFrames_invariant {fs : List FrameRecord}
    (h : (fs.map FrameRecord.fxx).Nodup) : framesInvariant (sortFrames fs) := by
  have hperm : List.Perm ((sortFrames fs).map FrameRecord.fxx) (fs.map FrameRecord.fxx) :=
    (sortFrames_perm fs).map _
  exact pairwise_lt_of_sorted_nodup (sortFrames_sorted fs) (hperm.nodup_iff.2 h)

lemma framesInvariant_nodup {fs : List FrameRecord} (h : framesInvariant fs) :
    (fs.map FrameRecord.fxx).Nodup :=
  List.pairwise_map.2 (h.imp (fun hab => Nat.ne_of_lt hab))

lemma lookup_append_left {k : String} {v : Option String}
    {l₂ : List (String × Option String)} :
    ∀ {l₁ : List (String × Option String)}, l₁.lookup k = some v →
      (l₁ ++ l₂).lookup k = some v := by
  intro l₁
  induction l₁ with
  | nil => intro h; simp [List.lookup] at h
  | cons p rest ih =>
      intro h
      rw [List.cons_append]
      rw [List.lookup] at h ⊢
      by_cases hk : k == p.1
      · simpa [hk] using h
      · simp only [hk] at h ⊢
        exact ih h

end ModelViewer

namespace ModelViewer

lemma reconcile_same_run_of_scan_nil (avail : Int → Nat → Bool) (env : Env)
    (name : String) (cfg : ModelConfig) (valid_dt : Int) (fs : List FrameRecord)
    (h : scan_new_hours (fun fxx => avail valid_dt fxx) (fs.map FrameRecord.fxx)
          (all_expected_fxxs cfg.step cfg.max_hours) = []) :
    reconcile_same_run avail env name cfg valid_dt fs
      = { run_time := valid_dt, display_name := cfg.display_name, frames := fs } := by
  simp only [reconcile_same_run]
  rw [h]
  simp

lemma reconcile_same_run_of_scan_cons (avail : Int → Nat → Bool) (env : Env)
    (name : String) (cfg : ModelConfig) (valid_dt : Int) (fs : List FrameRecord)
    (S : List Nat)
    (h : scan_new_hours (fun fxx => avail valid_dt fxx) (fs.map FrameRecord.fxx)
          (all_expected_fxxs cfg.step cfg.max_hours) = S) (hne : S ≠ []) :
    reconcile_same_run avail env name cfg valid_dt fs
      = { run_time := valid_dt, display_name := cfg.display_name,
          frames := sortFrames (apply_frames (fs.map FrameRecord.fxx) fs
            (S.map (process_frame env name cfg valid_dt))) } := by
  simp only [reconcile_same_run]
  rw [h]
  simp [hne]

lemma processed_pairwise_le (env : Env) (name : String) (cfg : ModelConfig)
    (t : Int) (S : List Nat) (hS : S.Pairwise (· < ·)) :
    (S.map (process_frame env name cfg t)).Pairwise (fun a b => a.fxx ≤ b.fxx) := by
  refine hS.map _ (fun a b h => ?_)
  rw [process_frame_fxx, process_frame_fxx]
  exact Nat.le_of_lt h

lemma new_run_frames_eq (env : Env) (name : String) (cfg : ModelConfig) (t : Int)
    (hstep : 0 < cfg.step) :
    (reconcile_new_run env name cfg t).frames
      = (all_expected_fxxs cfg.step cfg.max_hours).map (process_frame env name cfg t) := by
  simp only [reconcile_new_run]
  rw [apply_frames_nil_keys, List.nil_append,
    sortFrames_eq_of_sorted
      (processed_pairwise_le env name cfg t _ (all_expected_pairwise_lt hstep))]

lemma reconcile_same_run_run_time (avail : Int → Nat → Bool) (env : Env)
    (name : String) (cfg : ModelConfig) (valid_dt : Int) (fs : List FrameRecord) :
    (reconcile_same_run avail env name cfg valid_dt fs).run_time = valid_dt := by
  simp only [reconcile_same_run]
  split <;> rfl

lemma reconcile_same_run_display (avail : Int → Nat → Bool) (env : Env)
    (name : String) (cfg : ModelConfig) (valid_dt : Int) (fs : List FrameRecord) :
    (reconcile_same_run avail env name cfg valid_dt fs).display_name
      = cfg.display_name := by
  simp only [reconcile_same_run]
  split <;> rfl

lemma process_model_none (avail : Int → Nat → Bool) (env : Env) (name : String)
    (cfg : ModelConfig) (nowDay : Int) (nowHour : Nat) (prev : Option RunRecord)
    (hfind : find_run avail cfg.cycle_hrs (get_run_time cfg.cycle_hrs nowDay nowHour)
      = none) :
    process_model avail env name cfg nowDay nowHour prev = none := by
  simp only [process_model]
  rw [hfind]

lemma process_model_caseA_none (avail : Int → Nat → Bool) (env : Env) (name : String)
    (cfg : ModelConfig) (nowDay : Int) (nowHour : Nat) {t : Int}
    (hfind : find_run avail cfg.cycle_hrs (get_run_time cfg.cycle_hrs nowDay nowHour)
      = some t) :
    process_model avail env name cfg nowDay nowHour none
      = some (reconcile_new_run env name cfg t) := by
  simp only [process_model]
  rw [hfind]

lemma process_model_caseA_other (avail : Int → Nat → Bool) (env : Env) (name : String)
    (cfg : ModelConfig) (nowDay : Int) (nowHour : Nat) {t : Int} (r : RunRecord)
    (hfind : find_run avail cfg.cycle_hrs (get_run_time cfg.cycle_hrs nowDay nowHour)
      = some t) (hne : t ≠ r.run_time) :
    process_model avail env name cfg nowDay nowHour (some r)
      = some (reconcile_new_run env name cfg t) := by
  simp only [process_model]
  rw [hfind]
  simp [hne]

lemma process_model_caseB (avail : Int → Nat → Bool) (env : Env) (name : String)
    (cfg : ModelConfig) (nowDay : Int) (nowHour : Nat) {t : Int} (r : RunRecord)
    (hfind : find_run avail cfg.cycle_hrs (get_run_time cfg.cycle_hrs nowDay nowHour)
      = some t) (heq : t = r.run_time) :
    process_model avail env name cfg nowDay nowHour (some r)
      = some (reconcile_same_run avail env name cfg t r.frames) := by
  simp only [process_model]
  rw [hfind]
  simp [heq]

lemma mem_map_fxx_filter_processed (env : Env) (name : String) (cfg : ModelConfig)
    (t : Int) (S : List Nat) (keys : List Nat) (x : Nat) :
    (x ∈ ((S.map (process_frame env name cfg t)).filter
          (fun fr => !decide (fr.fxx ∈ keys))).map FrameRecord.fxx)
      ↔ (x ∈ S ∧ x ∉ keys) := by
  simp only [List.mem_map, List.mem_filter]
  constructor
  · rintro ⟨fr, ⟨⟨s, hs, rfl⟩, hfilt⟩, rfl⟩
    rw [process_frame_fxx] at hfilt ⊢
    simp only [Bool.not_eq_true', decide_eq_false_iff_not] at hfilt
    exact ⟨hs, hfilt⟩
  · rintro ⟨hx, hk⟩
    refine ⟨process_frame env name cfg t x, ⟨⟨x, hx, rfl⟩, ?_⟩, process_frame_fxx _ _ _ _ _⟩
    rw [process_frame_fxx]
    simp only [Bool.not_eq_true', decide_eq_false_iff_not]
    exact hk

end ModelViewer

namespace ModelViewer

lemma runrecord_eq_of_fields {rr : RunRecord} {t : Int} {dn : String}
    (h1 : rr.run_time = t) (h2 : rr.display_name = dn) :
    ({ run_time := t, display_name := dn, frames := rr.frames } : RunRecord) = rr := by
  cases rr
  simp_all

lemma same_run_frames_keys (avail : Int → Nat → Bool) (env : Env) (name : String)
    (cfg : ModelConfig) (valid_dt : Int) (fs : List FrameRecord) (x : Nat) :
    (x ∈ (reconcile_same_run avail env name cfg valid_dt fs).frames.map FrameRecord.fxx)
      ↔ (x ∈ fs.map FrameRecord.fxx
          ∨ x ∈ scan_new_hours (fun fxx => avail valid_dt fxx) (fs.map FrameRecord.fxx)
              (all_expected_fxxs cfg.step cfg.max_hours)) := by
  cases hS : scan_new_hours (fun fxx => avail valid_dt fxx) (fs.map FrameRecord.fxx)
      (all_expected_fxxs cfg.step cfg.max_hours) with
  | nil =>
      rw [reconcile_same_run_of_scan_nil avail env name cfg valid_dt fs hS]
      simp
  | cons s S' =>
      rw [reconcile_same_run_of_scan_cons avail env name cfg valid_dt fs (s :: S') hS
        (by simp)]
      simp only
      rw [List.Perm.mem_iff ((sortFrames_perm _).map _),
        apply_frames_map_fxx, List.mem_append, mem_map_fxx_filter_processed]
      constructor
      · rintro (h | ⟨h1, _⟩)
        · exact Or.inl h
        · exact Or.inr h1
      · rintro (h | h)
        · exact Or.inl h
        · rw [← hS] at h
          obtain ⟨_, hk, _⟩ := mem_scan _ h
          rw [hS] at h
          exact Or.inr ⟨h, hk⟩

lemma scan_nodup (a : Nat → Bool) (keys : List Nat) {l : List Nat} (hl : l.Nodup) :
    (scan_new_hours a keys l).Nodup := by
  rw [scan_eq_takeWhile_filter]
  exact ((List.takeWhile_sublist _).trans (List.filter_sublist _)).nodup hl

lemma filtered_processed_keys_sublist (env : Env) (name : String) (cfg : ModelConfig)
    (t : Int) (S : List Nat) (keys : List Nat) :
    (((S.map (process_frame env name cfg t)).filter
        (fun fr => !decide (fr.fxx ∈ keys))).map FrameRecord.fxx).Sublist S := by
  have h2 := (List.filter_sublist (l := S.map (process_frame env name cfg t))
    (p := fun fr => !decide (fr.fxx ∈ keys))).map FrameRecord.fxx
  rw [map_fxx_map_process_frame] at h2
  exact h2

lemma new_run_invariant (env : Env) (name : String) (cfg : ModelConfig) (t : Int)
    (hstep : 0 < cfg.step) :
    framesInvariant (reconcile_new_run env name cfg t).frames := by
  simp only [reconcile_new_run]
  rw [apply_frames_nil_keys, List.nil_append]
  refine sortFrames_invariant ?_
  rw [map_fxx_map_process_frame]
  exact all_expected_nodup hstep

lemma same_run_invariant (avail : Int → Nat → Bool) (env : Env) (name : String)
    (cfg : ModelConfig) (t : Int) (fs : List FrameRecord) (hstep : 0 < cfg.step)
    (hfs : framesInvariant fs) :
    framesInvariant (reconcile_same_run avail env name cfg t fs).frames := by
  cases hS : scan_new_hours (fun fxx => avail t fxx) (fs.map FrameRecord.fxx)
      (all_expected_fxxs cfg.step cfg.max_hours) with
  | nil =>
      rw [reconcile_same_run_of_scan_nil avail env name cfg t fs hS]
      exact hfs
  | cons s S' =>
      rw [reconcile_same_run_of_scan_cons avail env name cfg t fs (s :: S') hS (by simp)]
      refine sortFrames_invariant ?_
      rw [apply_frames_map_fxx, List.nodup_append]
      have hSnodup : (s :: S').Nodup := by
        rw [← hS]
        exact scan_nodup _ _ (all_expected_nodup hstep)
      refine ⟨framesInvariant_nodup hfs,
        (filtered_processed_keys_sublist env name cfg t (s :: S')
          (fs.map FrameRecord.fxx)).nodup hSnodup, ?_⟩
      intro x hx hx2
      rw [mem_map_fxx_filter_processed] at hx2
      exact hx2.2 hx

end ModelViewer

namespace ModelViewer

lemma convert_unit_in (x : ℚ) : convert_unit ("in") x = x * 0.0393701 := by
  unfold convert_unit
  rw [if_neg (by decide), if_neg (by decide), if_pos rfl]

/-- C5 counterexample: the depth conversion of `process_frame` multiplies
the fetched value by 0.0393701 (the millimetre-to-inch factor), and the
snow conversion of `generate_images.py` multiplies by 39.37, so neither
multiplies the fetched value by 39.3701, and a fetched value of 1 does
not convert to 39.3701. -/
theorem depth_conversion_factor_refuted :
    convert_unit ("in") 1 = 0.0393701
    ∧ convert_unit ("in") 1 ≠ 39.3701
    ∧ GenerateImages.snow_convert 1 = 39.37
    ∧ GenerateImages.snow_convert 1 ≠ 39.3701 := by
  refine ⟨?_, ?_, ?_, ?_⟩ <;>
    norm_num [convert_unit_in, GenerateImages.snow_convert]

/-- C5 (amended): the conversion applied to accumulation/depth variables
before rendering multiplies the fetched value by 0.0393701 in
`plot_models.py` (so a fetched value of 1000, i.e. one metre expressed
in millimetres, converts to 39.3701 inches, and a fetched value of 1
converts to 0.0393701), and by 39.37 in `generate_images.py` (so one
metre converts to 39.37 inches there). -/
theorem depth_conversion_spec (x : ℚ) :
    convert_unit ("in") x = x * 0.0393701
    ∧ convert_unit ("in") 1000 = 39.3701
    ∧ GenerateImages.snow_convert x = x * 39.37
    ∧ GenerateImages.snow_convert 1 = 39.37 := by
  refine ⟨?_, ?_, rfl, ?_⟩ <;>
    norm_num [convert_unit_in, GenerateImages.snow_convert]

/-- C6: the apparent temperature equals the wind-chill polynomial
`35.74 + 0.6215 T - 35.75 V^0.16 + 0.4275 T V^0.16` exactly when
T < 50 °F and V > 3 mph, and equals T unchanged otherwise; in
particular T = 60 °F, V = 10 mph yields exactly 60 °F.  The float power
`V ** 0.16` is the parameter `pow016`. -/
theorem apparent_temp_spec (pow016 : ℚ → ℚ) (t v : ℚ) :
    (t < 50 → v > 3 → calculate_apparent_temp pow016 t v
        = 35.74 + 0.6215 * t - 35.75 * pow016 v + 0.4275 * t * pow016 v)
    ∧ (¬ (t < 50 ∧ v > 3) → calculate_apparent_temp pow016 t v = t)
    ∧ calculate_apparent_temp pow016 60 10 = 60 := by
  unfold calculate_apparent_temp
  refine ⟨fun h1 h2 => ?_, fun h => ?_, ?_⟩
  · rw [if_pos ⟨h1, h2⟩]
  · rw [if_neg h]
  · have hno : ¬ ((60 : ℚ) < 50 ∧ (10 : ℚ) > 3) := by
      rintro ⟨h1, _⟩
      norm_num at h1
    rw [if_neg hno]

/-- Witness for C6, applying the wind-chill branch at T = 40 °F and
V = 10 mph with the power primitive frozen to the constant 1. -/
theorem apparent_temp_spec_check :
    calculate_apparent_temp (fun _ => 1) 40 10
      = 35.74 + 0.6215 * 40 - 35.75 * (fun _ : ℚ => (1 : ℚ)) 10
        + 0.4275 * 40 * (fun _ : ℚ => (1 : ℚ)) 10 :=
  (apparent_temp_spec (fun _ => 1) 40 10).1 (by norm_num) (by norm_num)

/-- C1: in Case B (same run) the scheduled hours are obtained from the
expected hours by skipping the hours already recorded and probing the
rest in ascending order, keeping hours while probes succeed and stopping
the whole scan at the first unavailable hour (which is probed; nothing
after it is probed).  In the concrete gap-stop scenario with
`maxForecastHour` 3, `stepHours` 1, no prior frames and upstream
availability exactly {0, 1, 3}, the scheduled set is [0, 1], hour 3 is
never probed, and the run record produced by `process_model` contains
exactly hours 0 and 1. -/
theorem caseB_gap_stop_schedule :
    (∀ (a : Nat → Bool) (keys l : List Nat),
        scan_new_hours a keys l = (l.filter (fun x => !decide (x ∈ keys))).takeWhile a
        ∧ probed_hours a keys l
            = (l.filter (fun x => !decide (x ∈ keys))).takeWhile a
              ++ ((l.filter (fun x => !decide (x ∈ keys))).dropWhile a).take 1)
    ∧ all_expected_fxxs 1 3 = [0, 1, 2, 3]
    ∧ scan_new_hours (fun f => availGap (-1) f) [] (all_expected_fxxs 1 3) = [0, 1]
    ∧ probed_hours (fun f => availGap (-1) f) [] (all_expected_fxxs 1 3) = [0, 1, 2]
    ∧ 3 ∉ probed_hours (fun f => availGap (-1) f) [] (all_expected_fxxs 1 3)
    ∧ (process_model availGap envNone ("m") cfgGap 0 0 (some prevGap)).map
        (fun r => r.frames.map FrameRecord.fxx) = some [0, 1] := by
  refine ⟨fun a keys l =>
    ⟨scan_eq_takeWhile_filter a keys l, probed_eq_takeWhile_filter a keys l⟩,
    ?_, ?_, ?_, ?_, ?_⟩ <;> decide

end ModelViewer

namespace ModelViewer

lemma find_run_congr (avail avail2 : Int → Nat → Bool)
    (h : ∀ r, avail2 r 0 = avail r 0) (c : Nat) (b : Int) :
    find_run avail2 c b = find_run avail c b := by
  unfold find_run
  congr 1
  funext r
  exact h r

/-- C2: for every model, run discovery anchors at the current hour minus
one hour when `cycleHours` is 1 and otherwise at the current day with
the hour truncated down to the greatest multiple of `cycleHours` not
exceeding the current hour; it probes at most the four candidates
anchor, anchor - c, anchor - 2c, anchor - 3c in that order at forecast
hour 0 and returns the first success; if all four probes fail the model
yields `none` (recorded as failed) and every other model in the table is
still processed. -/
theorem run_discovery_spec (c : Nat) (d : Int) (hourNow : Nat)
    (avail : Int → Nat → Bool) (env : Env) (name : String) (cfg : ModelConfig)
    (nowDay : Int) (nowHour : Nat) (prev : Option RunRecord)
    (existing_status : String → Option RunRecord)
    (pre post : List (String × ModelConfig)) :
    get_run_time 1 d hourNow = d * 24 + hourNow - 1
    ∧ (c ≠ 1 → 0 < c →
        get_run_time c d hourNow = d * 24 + ((hourNow / c) * c : Nat)
        ∧ (hourNow / c) * c ≤ hourNow
        ∧ c ∣ (hourNow / c) * c
        ∧ ∀ m, c ∣ m → m ≤ hourNow → m ≤ (hourNow / c) * c)
    ∧ (∀ b : Int,
        run_candidates c b
          = [b, b - (if c = 1 then (1 : Int) else c),
             b - 2 * (if c = 1 then (1 : Int) else c),
             b - 3 * (if c = 1 then (1 : Int) else c)]
        ∧ find_run avail c b
            = (if avail b 0 then some b
               else if avail (b - (if c = 1 then (1 : Int) else c)) 0 then
                 some (b - (if c = 1 then (1 : Int) else c))
               else if avail (b - 2 * (if c = 1 then (1 : Int) else c)) 0 then
                 some (b - 2 * (if c = 1 then (1 : Int) else c))
               else if avail (b - 3 * (if c = 1 then (1 : Int) else c)) 0 then
                 some (b - 3 * (if c = 1 then (1 : Int) else c))
               else none))
    ∧ (find_run avail cfg.cycle_hrs (get_run_time cfg.cycle_hrs nowDay nowHour) = none →
        process_model avail env name cfg nowDay nowHour prev = none)
    ∧ run_invocation avail env (pre ++ (name, cfg) :: post) nowDay nowHour existing_status
        = run_invocation avail env pre nowDay nowHour existing_status
          ++ (name, process_model avail env name cfg nowDay nowHour (existing_status name))
            :: run_invocation avail env post nowDay nowHour existing_status := by
  refine ⟨?_, fun hc1 hc0 => ⟨?_, ?_, ?_, ?_⟩, fun b => ⟨?_, ?_⟩, ?_, ?_⟩
  · simp [get_run_time]
  · simp [get_run_time, hc1]
  · exact Nat.div_mul_le_self hourNow c
  · exact dvd_mul_left c (hourNow / c)
  · intro m hdvd hle
    obtain ⟨k, rfl⟩ := hdvd
    rw [mul_comm]
    exact Nat.mul_le_mul_right c ((Nat.le_div_iff_mul_le hc0).2 (by rwa [mul_comm c k] at hle))
  · unfold run_candidates
    simp [List.range_succ]
  · have hc : run_candidates c b
        = [b, b - (if c = 1 then (1 : Int) else c),
           b - 2 * (if c = 1 then (1 : Int) else c),
           b - 3 * (if c = 1 then (1 : Int) else c)] := by
      unfold run_candidates
      simp [List.range_succ]
    unfold find_run
    rw [hc]
    simp only [List.find?]
    rcases h0 : avail b 0 <;> rcases h1 : avail (b - (if c = 1 then (1 : Int) else c)) 0 <;>
      rcases h2 : avail (b - 2 * (if c = 1 then (1 : Int) else c)) 0 <;>
      rcases h3 : avail (b - 3 * (if c = 1 then (1 : Int) else c)) 0 <;>
      simp [h0, h1, h2, h3]
  · exact process_model_none avail env name cfg nowDay nowHour prev
  · simp [run_invocation]

/-- Witness for C2: anchors for an hourly and a six-hourly model at day
0 hour 15, and a model whose four probes all fail is recorded as
`none`. -/
theorem run_discovery_spec_check :
    get_run_time 1 0 15 = 14
    ∧ get_run_time 6 0 15 = 12
    ∧ process_model availFalse envNone ("x") cfgW 0 0 none = none := by
  have H := run_discovery_spec 6 0 15 availFalse envNone ("x") cfgW 0 0 none
    (fun _ => none) [] []
  refine ⟨?_, ?_, ?_⟩
  · have h := H.1
    norm_num at h ⊢
    exact h
  · have h := (H.2.1 (by decide) (by decide)).1
    norm_num at h ⊢
    exact h
  · exact H.2.2.2.1 (by decide)

end ModelViewer

namespace ModelViewer

lemma new_run_keys_perm (env : Env) (name : String) (cfg : ModelConfig) (t : Int) :
    List.Perm ((reconcile_new_run env name cfg t).frames.map FrameRecord.fxx)
      (all_expected_fxxs cfg.step cfg.max_hours) := by
  simp only [reconcile_new_run]
  rw [apply_frames_nil_keys, List.nil_append]
  have h := (sortFrames_perm ((all_expected_fxxs cfg.step cfg.max_hours).map
    (process_frame env name cfg t))).map FrameRecord.fxx
  rwa [map_fxx_map_process_frame] at h

/-- C3: when the discovered run differs from the recorded one, or there
is no previous record (Case A), all previous frames are discarded and
exactly every multiple of `stepHours` from 0 to `maxForecastHour`
inclusive is scheduled and processed; no per-hour probe is consulted
(the result is unchanged under any probe oracle that agrees at forecast
hour 0). -/
theorem caseA_full_schedule (avail avail2 : Int -> Nat -> Bool) (env : Env)
    (name : String) (cfg : ModelConfig) (nowDay : Int) (nowHour : Nat)
    (prev : Option RunRecord) (valid_dt : Int)
    (hstep : 0 < cfg.step)
    (hfind : find_run avail cfg.cycle_hrs (get_run_time cfg.cycle_hrs nowDay nowHour)
      = some valid_dt)
    (hnew : ∀ r, prev = some r -> valid_dt ≠ r.run_time) :
    process_model avail env name cfg nowDay nowHour prev
      = some (reconcile_new_run env name cfg valid_dt)
    ∧ (reconcile_new_run env name cfg valid_dt).frames
        = (all_expected_fxxs cfg.step cfg.max_hours).map
            (process_frame env name cfg valid_dt)
    ∧ (reconcile_new_run env name cfg valid_dt).frames.map FrameRecord.fxx
        = all_expected_fxxs cfg.step cfg.max_hours
    ∧ (∀ x, x ∈ all_expected_fxxs cfg.step cfg.max_hours
        ↔ ∃ k, x = k * cfg.step ∧ x ≤ cfg.max_hours)
    ∧ ((∀ r, avail2 r 0 = avail r 0) ->
        process_model avail2 env name cfg nowDay nowHour prev
          = process_model avail env name cfg nowDay nowHour prev) := by
  have hpart1 : process_model avail env name cfg nowDay nowHour prev
      = some (reconcile_new_run env name cfg valid_dt) := by
    cases prev with
    | none => exact process_model_caseA_none avail env name cfg nowDay nowHour hfind
    | some r =>
        exact process_model_caseA_other avail env name cfg nowDay nowHour r hfind
          (hnew r rfl)
  refine ⟨hpart1, new_run_frames_eq env name cfg valid_dt hstep, ?_, ?_, ?_⟩
  · rw [new_run_frames_eq env name cfg valid_dt hstep, map_fxx_map_process_frame]
  · exact fun x => mem_all_expected hstep
  · intro hav
    have hfind2 : find_run avail2 cfg.cycle_hrs
        (get_run_time cfg.cycle_hrs nowDay nowHour) = some valid_dt := by
      rw [find_run_congr avail avail2 hav]
      exact hfind
    rw [hpart1]
    cases prev with
    | none => exact process_model_caseA_none avail2 env name cfg nowDay nowHour hfind2
    | some r =>
        exact process_model_caseA_other avail2 env name cfg nowDay nowHour r hfind2
          (hnew r rfl)

/-- Witness for C3: an hourly test model with full availability and no
prior record processes exactly hours 0, 1, 2. -/
theorem caseA_full_schedule_check :
    process_model availTrue envNone ("m") cfgW 0 0 none
      = some (reconcile_new_run envNone ("m") cfgW (-1))
    ∧ (reconcile_new_run envNone ("m") cfgW (-1)).frames.map FrameRecord.fxx
        = all_expected_fxxs 1 2 := by
  have H := caseA_full_schedule availTrue availTrue envNone ("m") cfgW 0 0 none (-1)
    (by decide) (by decide) (fun r hr => by cases hr)
  exact ⟨H.1, H.2.2.1⟩

/-- C4 counterexample: with a successful wind/temperature fetch and a
failing renderer, the produced frame contains the keys `wind` and
`feelslike` mapped to `None` (Python null), so a renderer failure is
not represented by an absent key. -/
theorem render_failure_key_present :
    (process_frame envRenderFail ("m") cfgW (-1) 1).vars
      = [(("wind"), none), (("feelslike"), none)]
    ∧ (("wind"), (none : Option String)) ∈ (process_frame envRenderFail ("m") cfgW (-1) 1).vars
    ∧ (process_frame envRenderFail ("m") cfgW (-1) 1).vars.lookup ("wind") = some none := by
  refine ⟨?_, ?_, ?_⟩ <;> decide

lemma lookup_cons_ne {K rk : String} (h : rk ≠ K) {p : Option String}
    {l : List (String × Option String)} :
    (((rk, p)) :: l).lookup K = l.lookup K := by
  have hb : (K == rk) = false := beq_eq_false_iff_ne.2 (fun he => h he.symm)
  simp [List.lookup, hb]

lemma lookup_append_right {K : String} {l₁ l₂ : List (String × Option String)}
    (h : l₁.lookup K = none) : (l₁ ++ l₂).lookup K = l₂.lookup K := by
  induction l₁ with
  | nil => simp
  | cons p rest ih =>
      rw [List.cons_append]
      rw [List.lookup] at h ⊢
      by_cases hk : K == p.1
      · simp [hk] at h
      · simp only [hk] at h ⊢
        exact ih h

lemma lookup_append_single_ne {K rk : String} (h : rk ≠ K) (p : Option String)
    (l : List (String × Option String)) :
    (l ++ [(rk, p)]).lookup K = l.lookup K := by
  cases hl : l.lookup K with
  | some v => exact lookup_append_left hl
  | none =>
      rw [lookup_append_right hl, lookup_cons_ne h]
      rfl

lemma foldl_frame_step_lookup_some (env : Env) (k : String) (cfg : ModelConfig)
    (run : Int) (fxx : Nat) (l : List VariableRecipe) (fr : FrameRecord)
    {K : String} {v : Option String} (h : fr.vars.lookup K = some v) :
    ((l.foldl (frame_step env k cfg run fxx) fr).vars.lookup K = some v) := by
  obtain ⟨t, ht⟩ := foldl_frame_step_vars_prefix env k cfg run fxx l fr
  rw [ht]
  exact lookup_append_left h

lemma frame_step_vars_cases (env : Env) (k : String) (cfg : ModelConfig)
    (run : Int) (fxx : Nat) (fr : FrameRecord) (r : VariableRecipe) :
    (frame_step env k cfg run fxx fr r).vars = fr.vars
    ∨ ∃ p, (frame_step env k cfg run fxx fr r).vars = fr.vars ++ [(r.key, p)] := by
  unfold frame_step
  split
  · exact Or.inl rfl
  · split
    · exact Or.inl rfl
    · cases hv : env.fetch_var run fxx r.search with
      | none => exact Or.inl rfl
      | some x => exact Or.inr ⟨_, rfl⟩

lemma frame_step_not_fired (env : Env) (k : String) (cfg : ModelConfig) (run : Int)
    (fxx : Nat) (fr : FrameRecord) (r : VariableRecipe)
    (h : r.key ∈ cfg.skip_vars ∨ (fxx = 0 ∧ r.accum = true)
      ∨ env.fetch_var run fxx r.search = none) :
    frame_step env k cfg run fxx fr r = fr := by
  unfold frame_step
  by_cases h1 : r.key ∈ cfg.skip_vars
  · rw [if_pos h1]
  · rw [if_neg h1]
    by_cases h2 : fxx = 0 ∧ r.accum = true
    · rw [if_pos h2]
    · rw [if_neg h2]
      rcases h with h | h | h
      · exact absurd h h1
      · exact absurd h h2
      · rw [h]

lemma foldl_frame_step_lookup_unchanged (env : Env) (k : String) (cfg : ModelConfig)
    (run : Int) (fxx : Nat) :
    ∀ (l : List VariableRecipe) (fr : FrameRecord) (K : String),
      (∀ r ∈ l, r.key ≠ K) →
      ((l.foldl (frame_step env k cfg run fxx) fr).vars.lookup K = fr.vars.lookup K)
  | [], _, _, _ => rfl
  | r :: rest, fr, K, h => by
      rw [List.foldl_cons,
        foldl_frame_step_lookup_unchanged env k cfg run fxx rest _ K
          (fun r2 hr2 => h r2 (List.mem_cons_of_mem _ hr2))]
      rcases frame_step_vars_cases env k cfg run fxx fr r with hc | ⟨p, hc⟩
      · rw [hc]
      · rw [hc, lookup_append_single_ne (h r (List.mem_cons_self _ _)) p fr.vars]

lemma foldl_frame_step_lookup_not_fired (env : Env) (k : String) (cfg : ModelConfig)
    (run : Int) (fxx : Nat) :
    ∀ (l : List VariableRecipe) (fr : FrameRecord) (K : String),
      fr.vars.lookup K = none →
      (∀ r ∈ l, r.key = K →
        (r.key ∈ cfg.skip_vars ∨ (fxx = 0 ∧ r.accum = true)
          ∨ env.fetch_var run fxx r.search = none)) →
      (l.foldl (frame_step env k cfg run fxx) fr).vars.lookup K = none
  | [], _, _, habs, _ => habs
  | r :: rest, fr, K, habs, h => by
      rw [List.foldl_cons]
      by_cases hk : r.key = K
      · rw [frame_step_not_fired env k cfg run fxx fr r (h r (List.mem_cons_self _ _) hk)]
        exact foldl_frame_step_lookup_not_fired env k cfg run fxx rest fr K habs
          (fun r2 hr2 => h r2 (List.mem_cons_of_mem _ hr2))
      · have habs2 : (frame_step env k cfg run fxx fr r).vars.lookup K = none := by
          rcases frame_step_vars_cases env k cfg run fxx fr r with hc | ⟨p, hc⟩
          · rw [hc]
            exact habs
          · rw [hc, lookup_append_single_ne hk p fr.vars]
            exact habs
        exact foldl_frame_step_lookup_not_fired env k cfg run fxx rest _ K habs2
          (fun r2 hr2 => h r2 (List.mem_cons_of_mem _ hr2))

lemma foldl_frame_step_lookup_fired (env : Env) (k : String) (cfg : ModelConfig)
    (run : Int) (fxx : Nat) (l₁ l₂ : List VariableRecipe) (r₀ : VariableRecipe)
    (fr : FrameRecord)
    (hbefore : ∀ r ∈ l₁, r.key ≠ r₀.key)
    (habs : fr.vars.lookup r₀.key = none)
    (hskip : r₀.key ∉ cfg.skip_vars)
    (hacc : ¬ (fxx = 0 ∧ r₀.accum = true))
    (hfetch : ∃ x, env.fetch_var run fxx r₀.search = some x)
    (hrf : ∀ data, env.plot_ok k r₀.key data fxx = false) :
    (((l₁ ++ r₀ :: l₂).foldl (frame_step env k cfg run fxx) fr).vars.lookup r₀.key)
      = some none := by
  obtain ⟨x, hx⟩ := hfetch
  rw [List.foldl_append, List.foldl_cons]
  have h1 : ((l₁.foldl (frame_step env k cfg run fxx) fr).vars.lookup r₀.key) = none := by
    rw [foldl_frame_step_lookup_unchanged env k cfg run fxx l₁ fr r₀.key hbefore]
    exact habs
  have hstep : (frame_step env k cfg run fxx
      (l₁.foldl (frame_step env k cfg run fxx) fr) r₀).vars
      = (l₁.foldl (frame_step env k cfg run fxx) fr).vars ++ [(r₀.key, none)] := by
    unfold frame_step
    rw [if_neg hskip, if_neg hacc, hx]
    simp only [create_plot, hrf]
    simp
  refine foldl_frame_step_lookup_some env k cfg run fxx l₂ _ ?_
  rw [hstep, lookup_append_right h1]
  simp [List.lookup]

lemma wind_part_not_fired (env : Env) (k : String) (cfg : ModelConfig) (run : Int)
    (fxx : Nat) (fr : FrameRecord)
    (h : ("wind") ∈ cfg.skip_vars ∨ env.fetch_mix run fxx = none) :
    wind_part env k cfg run fxx fr = fr := by
  unfold wind_part
  rcases h with h | h
  · rw [if_pos h]
  · by_cases hw : ("wind") ∈ cfg.skip_vars
    · rw [if_pos hw]
    · rw [if_neg hw, h]

lemma wind_part_vars_cases (env : Env) (k : String) (cfg : ModelConfig) (run : Int)
    (fxx : Nat) (fr : FrameRecord) :
    (wind_part env k cfg run fxx fr).vars = fr.vars
    ∨ ∃ p1 p2, (wind_part env k cfg run fxx fr).vars
        = fr.vars ++ [(("wind"), p1), (("feelslike"), p2)] := by
  unfold wind_part
  split
  · exact Or.inl rfl
  · cases hv : env.fetch_mix run fxx with
    | none => exact Or.inl rfl
    | some tuv =>
        cases tuv with
        | mk t uv =>
            cases uv with
            | mk u v => exact Or.inr ⟨_, _, rfl⟩

lemma wind_part_lookup_other (env : Env) (k : String) (cfg : ModelConfig)
    (run : Int) (fxx : Nat) {K : String}
    (hKw : K ≠ ("wind")) (hKf : K ≠ ("feelslike")) :
    (wind_part env k cfg run fxx
      { fxx := fxx, valid := validOf run fxx, vars := [] }).vars.lookup K = none := by
  rcases wind_part_vars_cases env k cfg run fxx
      { fxx := fxx, valid := validOf run fxx, vars := [] } with hc | ⟨p1, p2, hc⟩
  · rw [hc]
    rfl
  · rw [hc]
    show ((([] : List (String × Option String)))
        ++ [(("wind"), p1), (("feelslike"), p2)]).lookup K = none
    rw [List.nil_append, lookup_cons_ne (Ne.symm hKw), lookup_cons_ne (Ne.symm hKf)]
    rfl

/-- C4 (amended): for every variable whose fetch/derivation succeeded, a
renderer failure leaves the variable key present in the frame record
mapped to `None` (Python null) — this holds for the derived
`wind`/`feelslike` group and for every section-B recipe — while a key
is absent exactly when its fetch/derivation never produced a field
(combined fetch failed or group skipped; recipe skipped, accumulated at
hour 0, or fetch empty/raising). -/
theorem render_failure_maps_key_to_none (env : Env) (k : String) (cfg : ModelConfig)
    (run : Int) (fxx : Nat) (r₀ : VariableRecipe)
    (hh : env.herbie_ok run fxx = true) :
    (∀ t u v : ℚ, ("wind") ∉ cfg.skip_vars → env.fetch_mix run fxx = some (t, u, v) →
      (∀ data, env.plot_ok k ("wind") data fxx = false) →
      (∀ data, env.plot_ok k ("feelslike") data fxx = false) →
      (process_frame env k cfg run fxx).vars.lookup ("wind") = some none
      ∧ (process_frame env k cfg run fxx).vars.lookup ("feelslike") = some none)
    ∧ ((("wind") ∈ cfg.skip_vars ∨ env.fetch_mix run fxx = none) →
      (process_frame env k cfg run fxx).vars.lookup ("wind") = none
      ∧ (process_frame env k cfg run fxx).vars.lookup ("feelslike") = none)
    ∧ (∀ l₁ l₂, VARIABLES = l₁ ++ r₀ :: l₂ → (∀ r ∈ l₁, r.key ≠ r₀.key) →
        r₀.key ≠ ("wind") → r₀.key ≠ ("feelslike") →
        r₀.key ∉ cfg.skip_vars → ¬ (fxx = 0 ∧ r₀.accum = true) →
        (∃ x, env.fetch_var run fxx r₀.search = some x) →
        (∀ data, env.plot_ok k r₀.key data fxx = false) →
        (process_frame env k cfg run fxx).vars.lookup r₀.key = some none)
    ∧ (∀ K : String, K ≠ ("wind") → K ≠ ("feelslike") →
        (∀ r ∈ VARIABLES, r.key = K →
          (r.key ∈ cfg.skip_vars ∨ (fxx = 0 ∧ r.accum = true)
            ∨ env.fetch_var run fxx r.search = none)) →
        (process_frame env k cfg run fxx).vars.lookup K = none) := by
  have hpf : process_frame env k cfg run fxx
      = VARIABLES.foldl (frame_step env k cfg run fxx)
          (wind_part env k cfg run fxx
            { fxx := fxx, valid := validOf run fxx, vars := [] }) := by
    unfold process_frame
    simp [hh]
  refine ⟨?_, ?_, ?_, ?_⟩
  · intro t u v hskip hmix hfw hff
    have haw : (wind_part env k cfg run fxx
        { fxx := fxx, valid := validOf run fxx, vars := [] }).vars
        = [(("wind"), none), (("feelslike"), none)] := by
      unfold wind_part
      rw [if_neg hskip, hmix]
      simp only [create_plot, hfw, hff]
      simp
    rw [hpf]
    constructor
    · refine foldl_frame_step_lookup_some env k cfg run fxx VARIABLES _ ?_
      rw [haw]
      decide
    · refine foldl_frame_step_lookup_some env k cfg run fxx VARIABLES _ ?_
      rw [haw]
      decide
  · intro h
    rw [hpf, wind_part_not_fired env k cfg run fxx _ h]
    constructor
    · rw [foldl_frame_step_lookup_unchanged env k cfg run fxx VARIABLES _ _ (by decide)]
      rfl
    · rw [foldl_frame_step_lookup_unchanged env k cfg run fxx VARIABLES _ _ (by decide)]
      rfl
  · intro l₁ l₂ hsplit hbefore hKw hKf hskipr hacc hfetch hrf
    rw [hpf, hsplit]
    exact foldl_frame_step_lookup_fired env k cfg run fxx l₁ l₂ r₀ _ hbefore
      (wind_part_lookup_other env k cfg run fxx hKw hKf) hskipr hacc hfetch hrf
  · intro K hKw hKf hguard
    rw [hpf]
    exact foldl_frame_step_lookup_not_fired env k cfg run fxx VARIABLES _ K
      (wind_part_lookup_other env k cfg run fxx hKw hKf) hguard

/-- Witness for C4 (amended): the wind key is present mapped to None
under a failing renderer; the temperature recipe key is present mapped
to None after a successful fetch with a failing renderer; the wind key
is absent when the combined fetch fails; the snow key is absent when
its fetch returns nothing. -/
theorem render_failure_maps_key_to_none_check :
    (process_frame envRenderFail ("w") cfgW (-1) 1).vars.lookup ("wind") = some none
    ∧ (process_frame envRecipeRenderFail ("w") cfgW (-1) 1).vars.lookup ("temp")
        = some none
    ∧ (process_frame envRecipeRenderFail ("w") cfgW (-1) 1).vars.lookup ("wind") = none
    ∧ (process_frame envRecipeRenderFail ("w") cfgW (-1) 1).vars.lookup ("snow")
        = none := by
  refine ⟨?_, ?_, ?_, ?_⟩
  · exact ((render_failure_maps_key_to_none envRenderFail ("w") cfgW (-1) 1 tempRecipe
      rfl).1 273.15 3 4 (by decide) rfl (fun _ => rfl) (fun _ => rfl)).1
  · exact (render_failure_maps_key_to_none envRecipeRenderFail ("w") cfgW (-1) 1
      tempRecipe rfl).2.2.1 [] (VARIABLES.tail) rfl (by simp) (by decide) (by decide)
      (by decide) (by decide) ⟨280, by decide⟩ (fun _ => rfl)
  · exact ((render_failure_maps_key_to_none envRecipeRenderFail ("w") cfgW (-1) 1
      tempRecipe rfl).2.1 (Or.inr rfl)).1
  · exact (render_failure_maps_key_to_none envRecipeRenderFail ("w") cfgW (-1) 1
      tempRecipe rfl).2.2.2 ("snow") (by decide) (by decide) (by decide)

end ModelViewer

namespace ModelViewer

/-- C9 counterexample: the status store is written by opening
`site/status.json` directly in truncating write mode and dumping into
it; the operation trace contains no rename and opens the final path in
place, so the write-temp-then-rename protocol the claim describes is
not what the code does. -/
theorem persist_not_atomic :
    (main_ops availFalse envNone MODELS 0 0 (fun _ => none) (fun _ => "")).2
      = [FsOp.openTrunc ("site/status.json"), FsOp.write ("site/status.json") ("")]
    ∧ ¬ atomicReplace
        (main_ops availFalse envNone MODELS 0 0 (fun _ => none) (fun _ => "")).2 := by
  constructor
  · rfl
  · unfold atomicReplace
    decide

/-- C9 (amended): the status store is written exactly once per
invocation, after all models are processed (the report is fully
collected before the persistence step), but it is written by truncating
the final file in place; the trace contains exactly one truncating open
of `site/status.json` and no rename. -/
theorem persist_once_in_place (avail : Int -> Nat -> Bool) (env : Env)
    (models : List (String × ModelConfig)) (nowDay : Int) (nowHour : Nat)
    (existing_status : String -> Option RunRecord)
    (dump : List (String × Option RunRecord) -> String) :
    (main_ops avail env models nowDay nowHour existing_status dump).2
      = persist_status (dump (run_invocation avail env models nowDay nowHour existing_status))
    ∧ ((main_ops avail env models nowDay nowHour existing_status dump).2.countP
        (FsOp.isOpenTruncOf ("site/status.json"))) = 1
    ∧ (∀ op ∈ (main_ops avail env models nowDay nowHour existing_status dump).2,
        op.isRename = false)
    ∧ (main_ops avail env models nowDay nowHour existing_status dump).1
      = run_invocation avail env models nowDay nowHour existing_status := by
  refine ⟨rfl, ?_, ?_, rfl⟩
  · simp [main_ops, persist_status, FsOp.isOpenTruncOf]
  · simp [main_ops, persist_status, FsOp.isRename]

/-- C10: `process_frame` is total and always yields a record whose
`fxx` field is the forecast hour and whose `valid` field is derived
from the run timestamp plus the forecast hour; when Herbie construction
fails it returns exactly the bare record with no variable keys; every
scheduled hour (Case A or Case B) ends up among the forecast hours of
the returned run record, and an hour present in the recorded frames is
excluded from the Case-B scan. -/
theorem frame_always_recorded (env : Env) (name : String) (cfg : ModelConfig)
    (run_dt valid_dt : Int) (fxx : Nat) (avail : Int -> Nat -> Bool)
    (keys l : List Nat) :
    (process_frame env name cfg run_dt fxx).fxx = fxx
    ∧ (process_frame env name cfg run_dt fxx).valid = validOf run_dt fxx
    ∧ (env.herbie_ok run_dt fxx = false ->
        process_frame env name cfg run_dt fxx
          = { fxx := fxx, valid := validOf run_dt fxx, vars := [] })
    ∧ (∀ fs : List FrameRecord,
        ∀ x ∈ scan_new_hours (fun f => avail valid_dt f) (fs.map FrameRecord.fxx)
            (all_expected_fxxs cfg.step cfg.max_hours),
          x ∈ (reconcile_same_run avail env name cfg valid_dt fs).frames.map
              FrameRecord.fxx)
    ∧ (∀ x ∈ all_expected_fxxs cfg.step cfg.max_hours,
        x ∈ (reconcile_new_run env name cfg valid_dt).frames.map FrameRecord.fxx)
    ∧ (fxx ∈ keys -> fxx ∉ scan_new_hours (fun f => avail valid_dt f) keys l) := by
  refine ⟨process_frame_fxx env name cfg run_dt fxx,
    process_frame_valid env name cfg run_dt fxx, ?_, ?_, ?_, ?_⟩
  · intro h
    unfold process_frame
    simp [h]
  · intro fs x hx
    rw [same_run_frames_keys]
    exact Or.inr hx
  · intro x hx
    exact (new_run_keys_perm env name cfg valid_dt).mem_iff.2 hx
  · intro hk hmem
    exact (mem_scan _ hmem).2.1 hk

/-- Witness for C10: a failing-Herbie frame still records hour 2 with
its valid time, and a recorded hour is skipped by the scan. -/
theorem frame_always_recorded_check :
    (process_frame envNone ("m") cfgW (-1) 2).fxx = 2
    ∧ process_frame envNone ("m") cfgW (-1) 2
        = { fxx := 2, valid := validOf (-1) 2, vars := [] }
    ∧ 2 ∉ scan_new_hours (fun f => availTrue (-1) f) [2] [0, 1, 2] := by
  have H := frame_always_recorded envNone ("m") cfgW (-1) (-1) 2 availTrue [2] [0, 1, 2]
  exact ⟨H.1, H.2.2.1 rfl, H.2.2.2.2.2 (by decide)⟩

end ModelViewer

namespace ModelViewer

/-- C7: reconciliation is idempotent: feeding the run record produced by
one invocation back as the prior state of a second invocation, against
the same probe oracle, the same environment and the same wall clock,
yields exactly the same run record again (no hour is rescheduled and no
frame is duplicated). -/
theorem reconcile_idempotent (avail : Int -> Nat -> Bool) (env : Env) (name : String)
    (cfg : ModelConfig) (nowDay : Int) (nowHour : Nat) (prev : Option RunRecord)
    (hstep : 0 < cfg.step) :
    process_model avail env name cfg nowDay nowHour
        (process_model avail env name cfg nowDay nowHour prev)
      = process_model avail env name cfg nowDay nowHour prev := by
  cases hfind : find_run avail cfg.cycle_hrs (get_run_time cfg.cycle_hrs nowDay nowHour) with
  | none =>
      rw [process_model_none avail env name cfg nowDay nowHour prev hfind,
        process_model_none avail env name cfg nowDay nowHour none hfind]
  | some t =>
      have fixA : process_model avail env name cfg nowDay nowHour
          (some (reconcile_new_run env name cfg t))
          = some (reconcile_new_run env name cfg t) := by
        rw [process_model_caseB avail env name cfg nowDay nowHour
          (reconcile_new_run env name cfg t) hfind rfl]
        have hcov : ∀ x ∈ all_expected_fxxs cfg.step cfg.max_hours,
            x ∈ (reconcile_new_run env name cfg t).frames.map FrameRecord.fxx :=
          fun x hx => (new_run_keys_perm env name cfg t).mem_iff.2 hx
        rw [reconcile_same_run_of_scan_nil avail env name cfg t _
          (scan_eq_nil_of_mem _ _ _ hcov)]
        exact congrArg some (runrecord_eq_of_fields rfl rfl)
      cases prev with
      | none =>
          rw [process_model_caseA_none avail env name cfg nowDay nowHour hfind]
          exact fixA
      | some r =>
          by_cases hrt : t = r.run_time
          · rw [process_model_caseB avail env name cfg nowDay nowHour r hfind hrt]
            rw [process_model_caseB avail env name cfg nowDay nowHour
              (reconcile_same_run avail env name cfg t r.frames) hfind
              (reconcile_same_run_run_time avail env name cfg t r.frames).symm]
            congr 1
            have hmemiff : ∀ x ∈ all_expected_fxxs cfg.step cfg.max_hours,
                ((x ∈ (reconcile_same_run avail env name cfg t r.frames).frames.map
                    FrameRecord.fxx)
                  ↔ (x ∈ r.frames.map FrameRecord.fxx
                    ∨ x ∈ scan_new_hours (fun fxx => avail t fxx)
                        (r.frames.map FrameRecord.fxx)
                        (all_expected_fxxs cfg.step cfg.max_hours))) :=
              fun x _ => same_run_frames_keys avail env name cfg t r.frames x
            have hnil := scan_eq_nil_of (fun fxx => avail t fxx)
              (all_expected_fxxs cfg.step cfg.max_hours)
              (r.frames.map FrameRecord.fxx)
              ((reconcile_same_run avail env name cfg t r.frames).frames.map
                FrameRecord.fxx)
              (all_expected_nodup hstep) hmemiff
            rw [reconcile_same_run_of_scan_nil avail env name cfg t _ hnil]
            exact runrecord_eq_of_fields
              (reconcile_same_run_run_time avail env name cfg t r.frames)
              (reconcile_same_run_display avail env name cfg t r.frames)
          · rw [process_model_caseA_other avail env name cfg nowDay nowHour r hfind hrt]
            exact fixA

/-- Witness for C7 in the gap-stop scenario (Case B with a partial
upstream). -/
theorem reconcile_idempotent_check :
    process_model availGap envNone ("m") cfgGap 0 0
        (process_model availGap envNone ("m") cfgGap 0 0 (some prevGap))
      = process_model availGap envNone ("m") cfgGap 0 0 (some prevGap) :=
  reconcile_idempotent availGap envNone ("m") cfgGap 0 0 (some prevGap) (by decide)

/-- C8: every run record returned by `process_model` has its frame list
strictly sorted by forecast hour (hence free of duplicate hours),
provided the prior record it was given satisfies the same invariant; a
processed hour whose frame already exists replaces it in place, any
other processed frame is appended, and the merged list is sorted by
forecast hour before being returned. -/
theorem runrecord_frames_invariant (avail : Int -> Nat -> Bool) (env : Env)
    (name : String) (cfg : ModelConfig) (nowDay : Int) (nowHour : Nat)
    (prev : Option RunRecord) (hstep : 0 < cfg.step)
    (hprev : ∀ r, prev = some r -> framesInvariant r.frames) :
    ∀ out, process_model avail env name cfg nowDay nowHour prev = some out ->
      framesInvariant out.frames := by
  intro out hout
  cases hfind : find_run avail cfg.cycle_hrs (get_run_time cfg.cycle_hrs nowDay nowHour) with
  | none =>
      rw [process_model_none avail env name cfg nowDay nowHour prev hfind] at hout
      cases hout
  | some t =>
      cases prev with
      | none =>
          rw [process_model_caseA_none avail env name cfg nowDay nowHour hfind] at hout
          cases hout
          exact new_run_invariant env name cfg t hstep
      | some r =>
          by_cases hrt : t = r.run_time
          · rw [process_model_caseB avail env name cfg nowDay nowHour r hfind hrt] at hout
            cases hout
            exact same_run_invariant avail env name cfg t r.frames hstep (hprev r rfl)
          · rw [process_model_caseA_other avail env name cfg nowDay nowHour r hfind hrt]
              at hout
            cases hout
            exact new_run_invariant env name cfg t hstep

/-- Witness for C8: the record produced for the test model from an
empty prior state satisfies the invariant. -/
theorem runrecord_frames_invariant_check :
    framesInvariant (reconcile_new_run envNone ("m") cfgW (-1)).frames :=
  runrecord_frames_invariant availTrue envNone ("m") cfgW 0 0 none (by decide)
    (fun r hr => by cases hr) (reconcile_new_run envNone ("m") cfgW (-1)) (by decide)

end ModelViewer
